import Mathlib

/-
Verification of the vector projection/rejection library
(IGME-RIT math-vector-projection).

The repository ships the tutorial driver source/main.cpp; the vector
headers (header/Vector2D.h, header/Vector3D.h, header/Vector4D.h,
header/helpers.h) that define the vector types and the operations
Dot, Project, Reject, Magnitude and randFloat are not present, so
those operations are modelled from the specification.  Floating-point
components are embedded as exact rationals (ℚ); Magnitude, which takes
a square root, lands in ℝ.
-/

/-- Modelled from the spec: the Vector2D value type of header/Vector2D.h
(not in src/), an ordered pair (x, y) of floating-point components,
embedded with exact rational arithmetic. -/
structure Vector2D where
  x : ℚ
  y : ℚ
deriving DecidableEq

namespace Vector2D

/-- Modelled from the spec: the all-zero Vector2D (zero-argument construction). -/
def zero : Vector2D := ⟨0, 0⟩

/-- Modelled from the spec: indexed component access by position 0..1. -/
def get (v : Vector2D) (i : Fin 2) : ℚ :=
  match i with
  | 0 => v.x
  | 1 => v.y

/-- Modelled from the spec: component-wise addition of two Vector2D. -/
def add (a b : Vector2D) : Vector2D := ⟨a.x + b.x, a.y + b.y⟩

/-- Modelled from the spec: component-wise subtraction of two Vector2D. -/
def sub (a b : Vector2D) : Vector2D := ⟨a.x - b.x, a.y - b.y⟩

/-- Modelled from the spec: scalar multiplication of a Vector2D. -/
def smul (s : ℚ) (v : Vector2D) : Vector2D := ⟨s * v.x, s * v.y⟩

/-- Modelled from the spec: the dot product of two Vector2D,
Σ a[i]·b[i] over i = 0..1. -/
def Dot (a b : Vector2D) : ℚ := a.x * b.x + a.y * b.y

/-- Modelled from the spec: Project(a, b) = (Dot(a, b) / Dot(b, b)) * b
from header/Vector2D.h (not in src/). -/
def Project (a b : Vector2D) : Vector2D := smul (Dot a b / Dot b b) b

/-- Modelled from the spec: Reject(a, b) = a - Project(a, b)
from header/Vector2D.h (not in src/). -/
def Reject (a b : Vector2D) : Vector2D := sub a (Project a b)

theorem dot2_smul_left (t : ℚ) (a b : Vector2D) :
    Dot (smul t a) b = t * Dot a b := by
  obtain ⟨a1, a2⟩ := a
  obtain ⟨b1, b2⟩ := b
  simp only [Dot, smul]
  ring

theorem dot2_self_ne_zero (b : Vector2D) (h : b ≠ zero) : Dot b b ≠ 0 := by
  obtain ⟨b1, b2⟩ := b
  intro h0
  apply h
  simp only [Dot] at h0
  have h1 : b1 = 0 := by nlinarith [mul_self_nonneg b1, mul_self_nonneg b2]
  have h2 : b2 = 0 := by nlinarith [mul_self_nonneg b1, mul_self_nonneg b2]
  simp [zero, h1, h2]

end Vector2D

/-- Modelled from the spec: the Vector3D value type of header/Vector3D.h
(not in src/), an ordered triple (x, y, z) of floating-point components,
embedded with exact rational arithmetic. -/
structure Vector3D where
  x : ℚ
  y : ℚ
  z : ℚ
deriving DecidableEq

namespace Vector3D

/-- Modelled from the spec: the all-zero Vector3D (zero-argument construction). -/
def zero : Vector3D := ⟨0, 0, 0⟩

/-- Modelled from the spec: indexed component access by position 0..2. -/
def get (v : Vector3D) (i : Fin 3) : ℚ :=
  match i with
  | 0 => v.x
  | 1 => v.y
  | 2 => v.z

/-- Modelled from the spec: component-wise addition of two Vector3D. -/
def add (a b : Vector3D) : Vector3D := ⟨a.x + b.x, a.y + b.y, a.z + b.z⟩

/-- Modelled from the spec: component-wise subtraction of two Vector3D. -/
def sub (a b : Vector3D) : Vector3D := ⟨a.x - b.x, a.y - b.y, a.z - b.z⟩

/-- Modelled from the spec: scalar multiplication of a Vector3D. -/
def smul (s : ℚ) (v : Vector3D) : Vector3D := ⟨s * v.x, s * v.y, s * v.z⟩

/-- Modelled from the spec: the dot product of two Vector3D,
Σ a[i]·b[i] over i = 0..2. -/
def Dot (a b : Vector3D) : ℚ := a.x * b.x + a.y * b.y + a.z * b.z

/-- Modelled from the spec: SquaredMagnitude(v) = Dot(v, v). -/
def SquaredMagnitude (v : Vector3D) : ℚ := Dot v v

/-- Modelled from the spec: Magnitude(v) = sqrt(SquaredMagnitude(v)),
a real number since the rationals are not closed under square roots. -/
noncomputable def Magnitude (v : Vector3D) : ℝ :=
  Real.sqrt ((SquaredMagnitude v : ℚ) : ℝ)

/-- Modelled from the spec: Project(a, b) = (Dot(a, b) / Dot(b, b)) * b
from header/Vector3D.h (not in src/). -/
def Project (a b : Vector3D) : Vector3D := smul (Dot a b / Dot b b) b

/-- Modelled from the spec: Reject(a, b) = a - Project(a, b)
from header/Vector3D.h (not in src/). -/
def Reject (a b : Vector3D) : Vector3D := sub a (Project a b)

theorem dot3_smul_left (t : ℚ) (a b : Vector3D) :
    Dot (smul t a) b = t * Dot a b := by
  obtain ⟨a1, a2, a3⟩ := a
  obtain ⟨b1, b2, b3⟩ := b
  simp only [Dot, smul]
  ring

theorem dot3_self_ne_zero (b : Vector3D) (h : b ≠ zero) : Dot b b ≠ 0 := by
  obtain ⟨b1, b2, b3⟩ := b
  intro h0
  apply h
  simp only [Dot] at h0
  have h1 : b1 = 0 := by
    nlinarith [mul_self_nonneg b1, mul_self_nonneg b2, mul_self_nonneg b3]
  have h2 : b2 = 0 := by
    nlinarith [mul_self_nonneg b1, mul_self_nonneg b2, mul_self_nonneg b3]
  have h3 : b3 = 0 := by
    nlinarith [mul_self_nonneg b1, mul_self_nonneg b2, mul_self_nonneg b3]
  simp [zero, h1, h2, h3]

end Vector3D

/-- Modelled from the spec: the Vector4D value type of header/Vector4D.h
(not in src/), an ordered quadruple (x, y, z, w) of floating-point
components, embedded with exact rational arithmetic. -/
structure Vector4D where
  x : ℚ
  y : ℚ
  z : ℚ
  w : ℚ
deriving DecidableEq

namespace Vector4D

/-- Modelled from the spec: the all-zero Vector4D (zero-argument construction). -/
def zero : Vector4D := ⟨0, 0, 0, 0⟩

/-- Modelled from the spec: indexed component access by position 0..3. -/
def get (v : Vector4D) (i : Fin 4) : ℚ :=
  match i with
  | 0 => v.x
  | 1 => v.y
  | 2 => v.z
  | 3 => v.w

/-- Modelled from the spec: component-wise addition of two Vector4D. -/
def add (a b : Vector4D) : Vector4D := ⟨a.x + b.x, a.y + b.y, a.z + b.z, a.w + b.w⟩

/-- Modelled from the spec: component-wise subtraction of two Vector4D. -/
def sub (a b : Vector4D) : Vector4D := ⟨a.x - b.x, a.y - b.y, a.z - b.z, a.w - b.w⟩

/-- Modelled from the spec: scalar multiplication of a Vector4D. -/
def smul (s : ℚ) (v : Vector4D) : Vector4D := ⟨s * v.x, s * v.y, s * v.z, s * v.w⟩

/-- Modelled from the spec: the dot product of two Vector4D,
Σ a[i]·b[i] over i = 0..3. -/
def Dot (a b : Vector4D) : ℚ := a.x * b.x + a.y * b.y + a.z * b.z + a.w * b.w

/-- Modelled from the spec: Project(a, b) = (Dot(a, b) / Dot(b, b)) * b
from header/Vector4D.h (not in src/). -/
def Project (a b : Vector4D) : Vector4D := smul (Dot a b / Dot b b) b

/-- Modelled from the spec: Reject(a, b) = a - Project(a, b)
from header/Vector4D.h (not in src/). -/
def Reject (a b : Vector4D) : Vector4D := sub a (Project a b)

theorem dot4_smul_left (t : ℚ) (a b : Vector4D) :
    Dot (smul t a) b = t * Dot a b := by
  obtain ⟨a1, a2, a3, a4⟩ := a
  obtain ⟨b1, b2, b3, b4⟩ := b
  simp only [Dot, smul]
  ring

theorem dot4_self_ne_zero (b : Vector4D) (h : b ≠ zero) : Dot b b ≠ 0 := by
  obtain ⟨b1, b2, b3, b4⟩ := b
  intro h0
  apply h
  simp only [Dot] at h0
  have h1 : b1 = 0 := by
    nlinarith [mul_self_nonneg b1, mul_self_nonneg b2, mul_self_nonneg b3,
      mul_self_nonneg b4]
  have h2 : b2 = 0 := by
    nlinarith [mul_self_nonneg b1, mul_self_nonneg b2, mul_self_nonneg b3,
      mul_self_nonneg b4]
  have h3 : b3 = 0 := by
    nlinarith [mul_self_nonneg b1, mul_self_nonneg b2, mul_self_nonneg b3,
      mul_self_nonneg b4]
  have h4 : b4 = 0 := by
    nlinarith [mul_self_nonneg b1, mul_self_nonneg b2, mul_self_nonneg b3,
      mul_self_nonneg b4]
  simp [zero, h1, h2, h3, h4]

end Vector4D

/-- Modelled from the spec: the contract of randFloat(min, max) from
header/helpers.h (not in src/): the returned value lies in the closed
interval [min, max]. -/
def randFloatRange (lo hi r : ℚ) : Prop := lo ≤ r ∧ r ≤ hi

/-- Claim C1: for every pair of same-dimension vectors a and b with Dot(b, b)
nonzero, Project(a, b) equals (Dot(a, b) / Dot(b, b)) * b, and it is the unique
scalar multiple t * b of b whose signed component along the direction of b is
that of a (equivalently, t * Dot(b, b) = Dot(a, b)). -/
theorem c1_project_formula :
    (∀ a b : Vector2D, Vector2D.Dot b b ≠ 0 →
      Vector2D.Project a b =
          Vector2D.smul (Vector2D.Dot a b / Vector2D.Dot b b) b ∧
        ∀ t : ℚ, Vector2D.smul t b = Vector2D.Project a b ↔
          t * Vector2D.Dot b b = Vector2D.Dot a b) ∧
    (∀ a b : Vector3D, Vector3D.Dot b b ≠ 0 →
      Vector3D.Project a b =
          Vector3D.smul (Vector3D.Dot a b / Vector3D.Dot b b) b ∧
        ∀ t : ℚ, Vector3D.smul t b = Vector3D.Project a b ↔
          t * Vector3D.Dot b b = Vector3D.Dot a b) ∧
    (∀ a b : Vector4D, Vector4D.Dot b b ≠ 0 →
      Vector4D.Project a b =
          Vector4D.smul (Vector4D.Dot a b / Vector4D.Dot b b) b ∧
        ∀ t : ℚ, Vector4D.smul t b = Vector4D.Project a b ↔
          t * Vector4D.Dot b b = Vector4D.Dot a b) := by
  refine ⟨fun a b h => ⟨rfl, fun t => ⟨fun ht => ?_, fun ht => ?_⟩⟩,
    fun a b h => ⟨rfl, fun t => ⟨fun ht => ?_, fun ht => ?_⟩⟩,
    fun a b h => ⟨rfl, fun t => ⟨fun ht => ?_, fun ht => ?_⟩⟩⟩
  case refine_1 =>
    have h2 := congrArg (fun v => Vector2D.Dot v b) ht
    simp only [Vector2D.Project, Vector2D.dot2_smul_left] at h2
    rwa [div_mul_cancel₀ _ h] at h2
  case refine_2 =>
    rw [(eq_div_iff h).mpr ht]
    rfl
  case refine_3 =>
    have h2 := congrArg (fun v => Vector3D.Dot v b) ht
    simp only [Vector3D.Project, Vector3D.dot3_smul_left] at h2
    rwa [div_mul_cancel₀ _ h] at h2
  case refine_4 =>
    rw [(eq_div_iff h).mpr ht]
    rfl
  case refine_5 =>
    have h2 := congrArg (fun v => Vector4D.Dot v b) ht
    simp only [Vector4D.Project, Vector4D.dot4_smul_left] at h2
    rwa [div_mul_cancel₀ _ h] at h2
  case refine_6 =>
    rw [(eq_div_iff h).mpr ht]
    rfl

/-- Witness for C1 at a = (2, 2, 0), b = (1, 0, 0). -/
theorem c1_project_formula_witness :
    Vector3D.Dot ⟨1, 0, 0⟩ ⟨1, 0, 0⟩ ≠ 0 ∧
    Vector3D.Project ⟨2, 2, 0⟩ ⟨1, 0, 0⟩ =
      Vector3D.smul
        (Vector3D.Dot ⟨2, 2, 0⟩ ⟨1, 0, 0⟩ / Vector3D.Dot ⟨1, 0, 0⟩ ⟨1, 0, 0⟩)
        ⟨1, 0, 0⟩ :=
  ⟨by norm_num [Vector3D.Dot],
    (c1_project_formula.2.1 ⟨2, 2, 0⟩ ⟨1, 0, 0⟩ (by norm_num [Vector3D.Dot])).1⟩

/-- Claim C2: for every pair of same-dimension vectors a and b with b nonzero,
Reject(a, b) equals a - Project(a, b). -/
theorem c2_reject_is_sub_project :
    (∀ a b : Vector2D, b ≠ Vector2D.zero →
      Vector2D.Reject a b = Vector2D.sub a (Vector2D.Project a b)) ∧
    (∀ a b : Vector3D, b ≠ Vector3D.zero →
      Vector3D.Reject a b = Vector3D.sub a (Vector3D.Project a b)) ∧
    (∀ a b : Vector4D, b ≠ Vector4D.zero →
      Vector4D.Reject a b = Vector4D.sub a (Vector4D.Project a b)) :=
  ⟨fun _ _ _ => rfl, fun _ _ _ => rfl, fun _ _ _ => rfl⟩

/-- Witness for C2 at a = (2, 2, 0), b = (1, 0, 0). -/
theorem c2_reject_is_sub_project_witness :
    (⟨1, 0, 0⟩ : Vector3D) ≠ Vector3D.zero ∧
    Vector3D.Reject ⟨2, 2, 0⟩ ⟨1, 0, 0⟩ =
      Vector3D.sub ⟨2, 2, 0⟩ (Vector3D.Project ⟨2, 2, 0⟩ ⟨1, 0, 0⟩) :=
  ⟨by norm_num [Vector3D.zero, Vector3D.mk.injEq],
    c2_reject_is_sub_project.2.1 ⟨2, 2, 0⟩ ⟨1, 0, 0⟩
      (by norm_num [Vector3D.zero, Vector3D.mk.injEq])⟩

/-- Claim C3: for every vector a and every nonzero vector b of the same
dimension, Project(a, b) + Reject(a, b) equals a exactly, under the exact
arithmetic of this embedding. -/
theorem c3_project_add_reject :
    (∀ a b : Vector2D, b ≠ Vector2D.zero →
      Vector2D.add (Vector2D.Project a b) (Vector2D.Reject a b) = a) ∧
    (∀ a b : Vector3D, b ≠ Vector3D.zero →
      Vector3D.add (Vector3D.Project a b) (Vector3D.Reject a b) = a) ∧
    (∀ a b : Vector4D, b ≠ Vector4D.zero →
      Vector4D.add (Vector4D.Project a b) (Vector4D.Reject a b) = a) := by
  refine ⟨fun a b _ => ?_, fun a b _ => ?_, fun a b _ => ?_⟩
  · obtain ⟨a1, a2⟩ := a
    obtain ⟨b1, b2⟩ := b
    simp only [Vector2D.add, Vector2D.Reject, Vector2D.sub, Vector2D.Project,
      Vector2D.smul, Vector2D.Dot, Vector2D.mk.injEq]
    refine ⟨by ring, by ring⟩
  · obtain ⟨a1, a2, a3⟩ := a
    obtain ⟨b1, b2, b3⟩ := b
    simp only [Vector3D.add, Vector3D.Reject, Vector3D.sub, Vector3D.Project,
      Vector3D.smul, Vector3D.Dot, Vector3D.mk.injEq]
    refine ⟨by ring, by ring, by ring⟩
  · obtain ⟨a1, a2, a3, a4⟩ := a
    obtain ⟨b1, b2, b3, b4⟩ := b
    simp only [Vector4D.add, Vector4D.Reject, Vector4D.sub, Vector4D.Project,
      Vector4D.smul, Vector4D.Dot, Vector4D.mk.injEq]
    refine ⟨by ring, by ring, by ring, by ring⟩

/-- Witness for C3 at a = (2, 2, 0), b = (1, 0, 0). -/
theorem c3_project_add_reject_witness :
    (⟨1, 0, 0⟩ : Vector3D) ≠ Vector3D.zero ∧
    Vector3D.add (Vector3D.Project ⟨2, 2, 0⟩ ⟨1, 0, 0⟩)
      (Vector3D.Reject ⟨2, 2, 0⟩ ⟨1, 0, 0⟩) = ⟨2, 2, 0⟩ :=
  ⟨by norm_num [Vector3D.zero, Vector3D.mk.injEq],
    c3_project_add_reject.2.1 ⟨2, 2, 0⟩ ⟨1, 0, 0⟩
      (by norm_num [Vector3D.zero, Vector3D.mk.injEq])⟩

/-- Claim C4: for every vector a and every nonzero vector b of the same
dimension, the rejection is perpendicular to b: Dot(Reject(a, b), b) = 0
exactly, under the exact arithmetic of this embedding. -/
theorem c4_reject_perpendicular :
    (∀ a b : Vector2D, b ≠ Vector2D.zero →
      Vector2D.Dot (Vector2D.Reject a b) b = 0) ∧
    (∀ a b : Vector3D, b ≠ Vector3D.zero →
      Vector3D.Dot (Vector3D.Reject a b) b = 0) ∧
    (∀ a b : Vector4D, b ≠ Vector4D.zero →
      Vector4D.Dot (Vector4D.Reject a b) b = 0) := by
  refine ⟨fun a b h => ?_, fun a b h => ?_, fun a b h => ?_⟩
  · have hd := Vector2D.dot2_self_ne_zero b h
    obtain ⟨a1, a2⟩ := a
    obtain ⟨b1, b2⟩ := b
    simp only [Vector2D.Dot] at hd
    simp only [Vector2D.Dot, Vector2D.Reject, Vector2D.sub, Vector2D.Project,
      Vector2D.smul]
    field_simp
    ring
  · have hd := Vector3D.dot3_self_ne_zero b h
    obtain ⟨a1, a2, a3⟩ := a
    obtain ⟨b1, b2, b3⟩ := b
    simp only [Vector3D.Dot] at hd
    simp only [Vector3D.Dot, Vector3D.Reject, Vector3D.sub, Vector3D.Project,
      Vector3D.smul]
    field_simp
    ring
  · have hd := Vector4D.dot4_self_ne_zero b h
    obtain ⟨a1, a2, a3, a4⟩ := a
    obtain ⟨b1, b2, b3, b4⟩ := b
    simp only [Vector4D.Dot] at hd
    simp only [Vector4D.Dot, Vector4D.Reject, Vector4D.sub, Vector4D.Project,
      Vector4D.smul]
    field_simp
    ring

/-- Witness for C4 at a = (2, 2, 0), b = (1, 0, 0). -/
theorem c4_reject_perpendicular_witness :
    (⟨1, 0, 0⟩ : Vector3D) ≠ Vector3D.zero ∧
    Vector3D.Dot (Vector3D.Reject ⟨2, 2, 0⟩ ⟨1, 0, 0⟩) ⟨1, 0, 0⟩ = 0 :=
  ⟨by norm_num [Vector3D.zero, Vector3D.mk.injEq],
    c4_reject_perpendicular.2.1 ⟨2, 2, 0⟩ ⟨1, 0, 0⟩
      (by norm_num [Vector3D.zero, Vector3D.mk.injEq])⟩

/-- Counterexample to C5 as stated: with a = (2, 2, 0) and b = (1, 0, 0),
Project(b, a) is (1/2, 1/2, 0), not (1, 1, 0) as the claim asserts, since
(Dot(b, a) / Dot(a, a)) * a = (2 / 8) * (2, 2, 0). -/
theorem c5_counterexample :
    Vector3D.Project ⟨1, 0, 0⟩ ⟨2, 2, 0⟩ ≠ ⟨1, 1, 0⟩ := by
  simp only [Vector3D.Project, Vector3D.Dot, Vector3D.smul, Vector3D.mk.injEq]
  norm_num

/-- Claim C5 amended: for a = (2, 2, 0) and b = (1, 0, 0), Project(a, b)
equals (2, 0, 0), Project(b, a) equals (1/2, 1/2, 0), and the two results
are unequal, witnessing that projection is not commutative. -/
theorem c5_projection_not_commutative :
    Vector3D.Project ⟨2, 2, 0⟩ ⟨1, 0, 0⟩ = ⟨2, 0, 0⟩ ∧
    Vector3D.Project ⟨1, 0, 0⟩ ⟨2, 2, 0⟩ = ⟨1/2, 1/2, 0⟩ ∧
    Vector3D.Project ⟨2, 2, 0⟩ ⟨1, 0, 0⟩ ≠
      Vector3D.Project ⟨1, 0, 0⟩ ⟨2, 2, 0⟩ := by
  refine ⟨?_, ?_, ?_⟩ <;>
    · simp only [Vector3D.Project, Vector3D.Dot, Vector3D.smul,
        Vector3D.mk.injEq]
      norm_num

/-- Claim C6: for every pair of same-dimension vectors a and b, Dot(a, b)
equals the sum over i = 0..N-1 of a[i] * b[i], and Dot is commutative. -/
theorem c6_dot_sum_and_comm :
    (∀ a b : Vector2D,
      Vector2D.Dot a b = ∑ i : Fin 2, Vector2D.get a i * Vector2D.get b i ∧
      Vector2D.Dot a b = Vector2D.Dot b a) ∧
    (∀ a b : Vector3D,
      Vector3D.Dot a b = ∑ i : Fin 3, Vector3D.get a i * Vector3D.get b i ∧
      Vector3D.Dot a b = Vector3D.Dot b a) ∧
    (∀ a b : Vector4D,
      Vector4D.Dot a b = ∑ i : Fin 4, Vector4D.get a i * Vector4D.get b i ∧
      Vector4D.Dot a b = Vector4D.Dot b a) := by
  refine ⟨fun a b => ⟨?_, ?_⟩, fun a b => ⟨?_, ?_⟩, fun a b => ⟨?_, ?_⟩⟩
  · rw [Fin.sum_univ_two]
    rfl
  · simp only [Vector2D.Dot]
    ring
  · rw [Fin.sum_univ_three]
    rfl
  · simp only [Vector3D.Dot]
    ring
  · rw [Fin.sum_univ_four]
    rfl
  · simp only [Vector4D.Dot]
    ring

/-- Claim C7: Magnitude((3, 4, 0)) equals exactly 5, where
Magnitude(v) = sqrt(Dot(v, v)). -/
theorem c7_magnitude_pythagorean :
    Vector3D.Magnitude ⟨3, 4, 0⟩ = 5 := by
  have h25 : ((Vector3D.SquaredMagnitude ⟨3, 4, 0⟩ : ℚ) : ℝ) = 25 := by
    norm_num [Vector3D.SquaredMagnitude, Vector3D.Dot]
  rw [Vector3D.Magnitude, h25, show (25 : ℝ) = 5 ^ 2 by norm_num]
  exact Real.sqrt_sq (by norm_num)

/-- Claim C8: for every 3D vector v, projecting v onto the unit x-axis
vector (1, 0, 0) yields (v.x, 0, 0): the projection extracts exactly the
x component, the property the cart-on-a-track demo relies on. -/
theorem c8_project_onto_x_axis (v : Vector3D) :
    Vector3D.Project v ⟨1, 0, 0⟩ = ⟨v.x, 0, 0⟩ := by
  obtain ⟨v1, v2, v3⟩ := v
  simp only [Vector3D.Project, Vector3D.Dot, Vector3D.smul, Vector3D.mk.injEq]
  norm_num

/-- Claim C9: projection is idempotent in its first argument: for every
vector a and every vector b with Dot(b, b) nonzero,
Project(Project(a, b), b) equals Project(a, b). -/
theorem c9_project_idempotent :
    (∀ a b : Vector2D, Vector2D.Dot b b ≠ 0 →
      Vector2D.Project (Vector2D.Project a b) b = Vector2D.Project a b) ∧
    (∀ a b : Vector3D, Vector3D.Dot b b ≠ 0 →
      Vector3D.Project (Vector3D.Project a b) b = Vector3D.Project a b) ∧
    (∀ a b : Vector4D, Vector4D.Dot b b ≠ 0 →
      Vector4D.Project (Vector4D.Project a b) b = Vector4D.Project a b) := by
  refine ⟨fun a b h => ?_, fun a b h => ?_, fun a b h => ?_⟩
  · have key : Vector2D.Dot (Vector2D.Project a b) b = Vector2D.Dot a b := by
      rw [Vector2D.Project, Vector2D.dot2_smul_left, div_mul_cancel₀ _ h]
    calc Vector2D.Project (Vector2D.Project a b) b
        = Vector2D.smul
            (Vector2D.Dot (Vector2D.Project a b) b / Vector2D.Dot b b) b := rfl
      _ = Vector2D.smul (Vector2D.Dot a b / Vector2D.Dot b b) b := by rw [key]
      _ = Vector2D.Project a b := rfl
  · have key : Vector3D.Dot (Vector3D.Project a b) b = Vector3D.Dot a b := by
      rw [Vector3D.Project, Vector3D.dot3_smul_left, div_mul_cancel₀ _ h]
    calc Vector3D.Project (Vector3D.Project a b) b
        = Vector3D.smul
            (Vector3D.Dot (Vector3D.Project a b) b / Vector3D.Dot b b) b := rfl
      _ = Vector3D.smul (Vector3D.Dot a b / Vector3D.Dot b b) b := by rw [key]
      _ = Vector3D.Project a b := rfl
  · have key : Vector4D.Dot (Vector4D.Project a b) b = Vector4D.Dot a b := by
      rw [Vector4D.Project, Vector4D.dot4_smul_left, div_mul_cancel₀ _ h]
    calc Vector4D.Project (Vector4D.Project a b) b
        = Vector4D.smul
            (Vector4D.Dot (Vector4D.Project a b) b / Vector4D.Dot b b) b := rfl
      _ = Vector4D.smul (Vector4D.Dot a b / Vector4D.Dot b b) b := by rw [key]
      _ = Vector4D.Project a b := rfl

/-- Witness for C9 at a = (2, 2, 0), b = (1, 0, 0). -/
theorem c9_project_idempotent_witness :
    Vector3D.Dot ⟨1, 0, 0⟩ ⟨1, 0, 0⟩ ≠ 0 ∧
    Vector3D.Project (Vector3D.Project ⟨2, 2, 0⟩ ⟨1, 0, 0⟩) ⟨1, 0, 0⟩ =
      Vector3D.Project ⟨2, 2, 0⟩ ⟨1, 0, 0⟩ :=
  ⟨by norm_num [Vector3D.Dot],
    c9_project_idempotent.2.1 ⟨2, 2, 0⟩ ⟨1, 0, 0⟩ (by norm_num [Vector3D.Dot])⟩

/-- Claim C10: the demo's rejection block does not enforce the nonzero-b
precondition: each component of b is randFloat(0, 1), whose contract allows
the value 0, so b = (0, 0, 0) with Dot(b, b) = 0 is a possible argument of
Project and Reject, making the division-by-zero branch reachable. -/
theorem c10_zero_divisor_reachable :
    ∃ r1 r2 r3 : ℚ,
      randFloatRange 0 1 r1 ∧ randFloatRange 0 1 r2 ∧ randFloatRange 0 1 r3 ∧
      Vector3D.mk r1 r2 r3 = Vector3D.zero ∧
      Vector3D.Dot ⟨r1, r2, r3⟩ ⟨r1, r2, r3⟩ = 0 := by
  refine ⟨0, 0, 0, ?_, ?_, ?_, ?_, ?_⟩ <;>
    norm_num [randFloatRange, Vector3D.zero, Vector3D.Dot]
